import Mathlib

/-!
# PowerShell-Host: verification of the session protocol engine

Shallow embedding of the repository's `PowerShell` class
(`src/PowerShell.js`, together with the later iteration of the same class
found in `src/unnamed/part_001`).

The class is single-threaded and event-driven: all mutation of the private
fields (`#child`, `#inited`, `#stdout`, `#stderr`, `#cmd`, `#cmdQueue`, ...)
happens inside discrete callbacks (stream `data`/`readable` handlers, the
`exit` handler, `setTimeout` callbacks, `stdin.write` completion callbacks)
or inside the synchronous bodies of `open`/`exec`.  We therefore model the
instance as an explicit state record `PSState` and each callback as a pure
state transformer; an execution of the session is a list of `PSEvent`s folded
over the state with `step`.

JavaScript string operations are modelled by executable functions over
`String.data` (`jsTrim`, `jsStartsWith`, ...): for the ASCII text this
library manipulates, JS code units coincide with characters, and JS
whitespace trimming coincides with trimming of ' ', '\t', '\n', '\r'.

Promise settlement is observable: each invocation of a command's `resolve`
or `reject` is recorded in an append-only `trace`, together with the
`error`/`exit` events the class emits on its `EventEmitter` interface.
A JS promise settles at the first `resolve`/`reject` invocation; later
invocations are no-ops, so the promise-level settlement order is the order
of first occurrences per command id in the trace.
-/

namespace PSHost

/-- JS whitespace test (the ASCII part of the JS `\s` class, which is all this
library's strings contain). -/
def jsIsWhite (c : Char) : Bool := c == ' ' || c == '\t' || c == '\n' || c == '\r'

/-- JS `String.prototype.trimStart`. -/
def jsTrimStart (s : String) : String := (s.data.dropWhile jsIsWhite).asString

/-- JS `String.prototype.trimEnd`. -/
def jsTrimEnd (s : String) : String := ((s.data.reverse.dropWhile jsIsWhite).reverse).asString

/-- JS `String.prototype.trim`. -/
def jsTrim (s : String) : String := jsTrimEnd (jsTrimStart s)

/-- JS `s.startsWith(p)`. -/
def jsStartsWith (s p : String) : Bool := p.data.isPrefixOf s.data

/-- JS `s.endsWith(p)`. -/
def jsEndsWith (s p : String) : Bool := p.data.isSuffixOf s.data

/-- JS `s.substring(n)` (drop the first `n` code units). -/
def jsDrop (s : String) (n : Nat) : String := (s.data.drop n).asString

/-- JS `s.substring(a, b)` with full JS semantics: both indices are clamped
to `[0, s.length]` and swapped when out of order.  Needed because
`src/unnamed/part_001` evaluates `data.substring(0, -prompt.length)`. -/
def jsSubstring (s : String) (a b : Int) : String :=
  let n : Int := Int.ofNat s.length
  let a' : Nat := (max 0 (min a n)).toNat
  let b' : Nat := (max 0 (min b n)).toNat
  ((s.data.drop (min a' b')).take (max a' b' - min a' b')).asString

/-- The rejection reason handed to a command's `reject` callback.
`str` is a bare JS string (in `src/PowerShell.js`, `#resolveCmd` rejects with
the trimmed stderr *string* itself); the other constructors are the
`PowerShellError`, `PowerShellTimeout`/`PowerShellExecTimeout` and
`PowerShellExecError` (part_001) classes, carrying their message. -/
inductive RejReason where
  | str (msg : String)
  | psError (msg : String)
  | psTimeout (msg : String)
  | execError (msg : String)
deriving DecidableEq

/-- The human-readable message carried by a rejection reason. -/
def RejReason.message : RejReason → String
  | .str m => m
  | .psError m => m
  | .psTimeout m => m
  | .execError m => m

/-- Settlement of one command's promise. -/
inductive Outcome where
  | resolved (v : String)
  | rejected (r : RejReason)
deriving DecidableEq

/-- Observable actions of the engine, in the order they are performed:
invocations of a command's `resolve`/`reject` (identified by the command's
submission index), and the `error`/`exit` events emitted on the class's
`EventEmitter` interface. -/
inductive Obs where
  | settle (id : Nat) (o : Outcome)
  | errorEvt (msg : String)
  | exitEvt
deriving DecidableEq

/-- One queued command (the `PowerShellCmd` record of the source).
`id` is the submission index (it identifies the `resolve`/`reject` pair of
this command's promise); `cmd` is the normalized text `cmd.trim() + '\n'`;
`hasTimeout` is the truthiness of the `timeout` argument. -/
structure PSCmd where
  id : Nat
  cmd : String
  hasTimeout : Bool
deriving DecidableEq

/-- The private state of one `PowerShell` instance.

* `child`, `spawned`, `inited`, `stdoutBuf`, `stderrBuf`, `cmd`, `cmdQueue`,
  `log` embed the fields `#child` (as a liveness flag: the handle itself is
  opaque), `#spawned`, `#inited`, `#stdout`, `#stderr`, `#cmd`, `#cmdQueue`,
  `#log`.
* `timers` is the set of armed `setTimeout` timers, represented by the
  command records whose `timeoutId` is set (the closure captures the
  command); `clearTimeout` removes the entry.
* `pendingWrites` is the set of outstanding `stdin.write` completion
  callbacks, again by captured command record.
* `trace` is the append-only log of observable actions (`Obs`).
* `crashed` records that a callback threw an uncaught JS exception
  (`TypeError`), which kills the Node process: no further events run. -/
structure PSState where
  child : Bool
  spawned : Bool
  inited : Bool
  stdoutBuf : String
  stderrBuf : String
  cmd : Option PSCmd
  cmdQueue : List PSCmd
  timers : List PSCmd
  pendingWrites : List PSCmd
  nextId : Nat
  log : Bool
  trace : List Obs
  crashed : Bool
deriving DecidableEq

/-- Append one observable action to the trace. -/
def emitObs (o : Obs) (s : PSState) : PSState := { s with trace := s.trace ++ [o] }

/-- `#popQueue` (`src/PowerShell.js` lines 171–198): clear both accumulators,
shift the queue head into `#cmd` (leaving `#cmd` undefined when the queue is
empty), arm the command's timeout timer if `cmd.timeout` is truthy, and write
`cmd.cmd` to the child's stdin, registering the write-completion callback.
The write `this.#child.stdin.write(...)` throws a `TypeError` when `#child`
is undefined, which we record as a crash. -/
def popQueue (s : PSState) : PSState :=
  match s.cmdQueue with
  | [] => { s with stdoutBuf := "", stderrBuf := "", cmd := none }
  | c :: rest =>
      { s with stdoutBuf := "", stderrBuf := "",
               cmd := some c, cmdQueue := rest,
               timers := if c.hasTimeout then c :: s.timers else s.timers,
               pendingWrites := if s.child then c :: s.pendingWrites else s.pendingWrites,
               crashed := if s.child then s.crashed else true }

/-- `#reject` (`src/PowerShell.js` lines 200–217; identical queue logic in
part_001's `#reject`): if no command is active the error is only logged and
the queue is advanced; otherwise clear the command's armed timer, advance the
queue, and invoke the command's `reject` with the reason. -/
def rejectCmd (r : RejReason) (s : PSState) : PSState :=
  match s.cmd with
  | none => popQueue s
  | some c =>
      emitObs (.settle c.id (.rejected r)) (popQueue { s with timers := s.timers.erase c })

/-- `#resolveCmd` (`src/PowerShell.js` lines 219–243): non-empty stderr is
rejected first, with the *trimmed stderr string itself* as the reason; with
empty stderr, `this.#cmd` is dereferenced without a guard (`cmd.cmd` throws a
`TypeError` when `#cmd` is undefined — a crash); the accumulated stdout must
start with the command text *as is* (no leading-whitespace trimming in this
file); on success the echoed prefix is dropped and the rest trimmed at the
end, then the timer is cleared, the queue advanced and `resolve` invoked. -/
def resolveCmd (s : PSState) : PSState :=
  if s.stderrBuf ≠ "" then rejectCmd (.str (jsTrim s.stderrBuf)) s
  else
    match s.cmd with
    | none => { s with crashed := true }
    | some c =>
        if !(jsStartsWith s.stdoutBuf c.cmd) then
          rejectCmd (.psError ("data does not start with command: " ++ c.cmd)) s
        else
          emitObs (.settle c.id (.resolved (jsTrimEnd (jsDrop s.stdoutBuf c.cmd.length))))
            (popQueue { s with timers := s.timers.erase c })

/-- `#resolveCmd` of the later iteration (`src/unnamed/part_001` lines
156–191).  Differences from `src/PowerShell.js`: the stderr rejection is
wrapped in `PowerShellExecError`; a missing `#cmd` is guarded (debug log and
`#popQueue`, no crash); the echo check runs on `this.#stdout.trimStart()`,
and the result is taken from that trimmed string.  Its `#reject` and
`#popQueue` have the same state effect as the ones above (part_001
additionally corks/uncorks stdin around the write, which does not change the
session state). -/
def resolveCmdB (s : PSState) : PSState :=
  if s.stderrBuf ≠ "" then rejectCmd (.execError (jsTrim s.stderrBuf)) s
  else
    match s.cmd with
    | none => popQueue s
    | some c =>
        if !(jsStartsWith (jsTrimStart s.stdoutBuf) c.cmd) then
          rejectCmd (.psError ("stdout does not start with command: " ++ c.cmd)) s
        else
          emitObs
            (.settle c.id (.resolved (jsTrimEnd (jsDrop (jsTrimStart s.stdoutBuf) c.cmd.length))))
            (popQueue { s with timers := s.timers.erase c })

/-- The stdout `data` handler `#processStdOut` (`src/PowerShell.js` lines
245–257): a chunk equal to the prompt sentinel `"PS>"` *exactly* ends the
cycle (first the init handshake, afterwards a command cycle); any other chunk
is appended to `#stdout` when initialised and dropped before that. -/
def processStdOut (data : String) (s : PSState) : PSState :=
  if data = "PS>" then
    if !s.inited then popQueue { s with inited := true }
    else resolveCmd s
  else if s.inited then { s with stdoutBuf := s.stdoutBuf ++ data }
  else s

/-- One chunk of the stdout `readable` handler of the later iteration
(`src/unnamed/part_001` lines 261–291): a chunk *ending* with the sentinel
ends the cycle, and `data.substring(0, -prompt.length)` (which always
evaluates to the empty string, the second index clamping to 0) is appended
before resolving; other chunks are appended when initialised. -/
def processStdOutB (data : String) (s : PSState) : PSState :=
  if jsEndsWith data "PS>" then
    if !s.inited then popQueue { s with inited := true }
    else resolveCmdB { s with stdoutBuf := s.stdoutBuf ++ jsSubstring data 0 (0 - 3) }
  else if s.inited then { s with stdoutBuf := s.stdoutBuf ++ data }
  else s

/-- The stderr `data` handler `#processStdErr`: append verbatim. -/
def processStdErr (data : String) (s : PSState) : PSState :=
  { s with stderrBuf := s.stderrBuf ++ data }

/-- The `while ((q = this.#cmdQueue.shift())) q.reject(new PowerShellError('shell exited'))`
loop at the end of the `exit` handler: reject the queued commands in queue
order. -/
def drainQueue (l : List PSCmd) (s : PSState) : PSState :=
  match l with
  | [] => s
  | c :: rest => drainQueue rest (emitObs (.settle c.id (.rejected (.psError "shell exited"))) s)

/-- The `exit` handler registered by `open` (`src/PowerShell.js` lines
135–154): drop the child handle and its listeners; if `#stderr` is non-empty,
emit an `error` event carrying it (untrimmed) and clear it; emit the `exit`
event; then reject every command still in `#cmdQueue` with a
`PowerShellError('shell exited')`, in queue order.  `#cmd` is not touched and
armed timers are not cleared. -/
def exitStep (s : PSState) : PSState :=
  let s1 : PSState :=
    if s.stderrBuf ≠ "" then
      emitObs (.errorEvt s.stderrBuf) { s with child := false, stderrBuf := "" }
    else { s with child := false }
  drainQueue s.cmdQueue { (emitObs .exitEvt s1) with cmdQueue := [] }

/-- `exec` (`src/PowerShell.js` lines 276–294): with no child handle it
throws `PowerShellError('No open shell to execute commands')` synchronously
(returned here as the second component, the state unchanged); otherwise the
promise executor runs synchronously: the normalized command is appended to
`#cmdQueue`, and if no command is active and the shell is initialised the
queue is popped immediately. -/
def exec (txt : String) (hasT : Bool) (s : PSState) : PSState × Option RejReason :=
  if s.child then
    let q : PSCmd := { id := s.nextId, cmd := jsTrim txt ++ "\n", hasTimeout := hasT }
    let s1 : PSState := { s with cmdQueue := s.cmdQueue ++ [q], nextId := s.nextId + 1 }
    if s1.cmd.isNone && s1.inited then (popQueue s1, none) else (s1, none)
  else (s, some (.psError "No open shell to execute commands"))

/-- The caller-visible `PowerShellOptions` object: absent fields fall back to
`defaultOptions` through the `{...defaultOptions, ...options}` spread. -/
structure PSOptions where
  shell : Option String
  args : Option (List String)
  log : Option Bool
deriving DecidableEq

/-- `open` (`src/PowerShell.js` lines 99–169), named `openShell` because
`open` is a Lean keyword.  The accumulators are reset and `#log` overwritten
*before* the promise executor checks `#child`; a live child makes the
returned promise reject with `PowerShellError('already spawned something')`,
otherwise the child is spawned (handler registration and the initialisation
script write are external I/O; the spawn confirmation arrives later as the
`spawnConfirm` event). -/
def openShell (o : PSOptions) (s : PSState) : PSState × Option RejReason :=
  let s1 : PSState := { s with stdoutBuf := "", stderrBuf := "", log := o.log.getD false }
  if s1.child then (s1, some (.psError "already spawned something"))
  else ({ s1 with child := true }, none)

/-- The discrete events that drive one opened session:

* `spawnConfirm` — the child's `spawn` event (resolves the `open` promise);
* `execReq txt hasTimeout` — a caller invokes `exec`;
* `outChunk` / `errChunk` — a chunk arrives on the child's stdout / stderr
  (only deliverable while the child's listeners are attached);
* `writeDone c` / `writeFail c msg` — the completion callback of the
  `stdin.write` issued for command `c` fires without / with an error;
* `timerFire c` — the `setTimeout` armed for command `c` fires (possible
  exactly while that timer is armed and not cleared);
* `exited` — the child's `exit` event. -/
inductive PSEvent where
  | spawnConfirm
  | execReq (txt : String) (hasT : Bool)
  | outChunk (data : String)
  | errChunk (data : String)
  | writeDone (c : PSCmd)
  | writeFail (c : PSCmd) (msg : String)
  | timerFire (c : PSCmd)
  | exited
deriving DecidableEq

/-- One event of the Node event loop applied to the session state.  Guards
encode deliverability: the `spawn`/`error`/`exit` listeners live on the
child-process object and are removed by the exit handler's
`removeAllListeners()`, so those events require the live child.  The stdout
and stderr `data` handlers, however, are attached to the *stream* objects
and survive that call, and Node delivers buffered stdio after the `exit`
event — so `outChunk`/`errChunk` run `#processStdOut`/`#processStdErr`
regardless of the child flag.  A write callback requires the write to be
outstanding; a timer firing requires the timer to be armed (`clearTimeout`
is never called on exit, so timers survive it too).  After an uncaught
exception (`crashed`) nothing further runs.
The `writeFail` branch is the error path of the write callback in
`#popQueue`: it advances the queue and rejects, but — unlike `#reject` —
never clears the command's armed timer. -/
def step (s : PSState) (e : PSEvent) : PSState :=
  if s.crashed then s else
  match e with
  | .spawnConfirm => if s.child then { s with spawned := true } else s
  | .execReq txt hasT => (exec txt hasT s).1
  | .outChunk d => processStdOut d s
  | .errChunk d => processStdErr d s
  | .writeDone c => { s with pendingWrites := s.pendingWrites.erase c }
  | .writeFail c msg =>
      if c ∈ s.pendingWrites then
        emitObs (.settle c.id (.rejected (.psError msg)))
          (popQueue { s with pendingWrites := s.pendingWrites.erase c })
      else s
  | .timerFire c =>
      if c ∈ s.timers then
        emitObs (.settle c.id (.rejected (.psTimeout ("exec timeout: " ++ jsTrimEnd c.cmd))))
          (popQueue { s with timers := s.timers.erase c })
      else s
  | .exited => if s.child then exitStep s else s

/-- Fold a list of events over the state. -/
def run (s : PSState) (es : List PSEvent) : PSState := es.foldl step s

/-- A freshly constructed `PowerShell` instance. -/
def initialState : PSState :=
  { child := false, spawned := false, inited := false,
    stdoutBuf := "", stderrBuf := "", cmd := none, cmdQueue := [],
    timers := [], pendingWrites := [], nextId := 0, log := false,
    trace := [], crashed := false }

/-- `open()` called with no options provided. -/
def defaultOpen : PSOptions := { shell := none, args := none, log := none }

/-- The session after `open()`, the spawn confirmation, and the initial
prompt handshake: the `Ready` state in which commands are dispatched. -/
def readyState : PSState :=
  run (openShell defaultOpen initialState).1 [.spawnConfirm, .outChunk "PS>"]

/-- The command ids of the `resolve`/`reject` invocations in a trace, in
invocation order. -/
def settleIds : List Obs → List Nat
  | [] => []
  | Obs.settle i _ :: rest => i :: settleIds rest
  | Obs.errorEvt _ :: rest => settleIds rest
  | Obs.exitEvt :: rest => settleIds rest

/-- Ids settled so far in a state. -/
def settledOf (s : PSState) : List Nat := settleIds s.trace

/-- Ids of the queued commands, in queue order. -/
def qIds (s : PSState) : List Nat := s.cmdQueue.map (fun c => c.id)

/-- Id of the active command (as a zero- or one-element list). -/
def cmdIds (s : PSState) : List Nat := s.cmd.toList.map (fun c => c.id)

/-- The events of normal operation: everything except

* a failing stdin write (which settles the popped command but never clears
  its armed timer),
* a stale timer firing — a timer is *stale* when its command is no longer
  the active one or the subprocess has already exited (the exit handler
  clears neither `#cmd` nor armed timers), and
* a sentinel (prompt) chunk delivered on stdout after the subprocess has
  exited — the stream handlers survive the exit handler, and Node delivers
  buffered stdout after `exit`, so such a chunk still reaches `#resolveCmd`
  and settles the still-active command after the exit drain.

Non-sentinel stdout chunks and stderr chunks are normal at any time. -/
def goodStep (s : PSState) : PSEvent → Bool
  | .timerFire c => s.child && decide (s.cmd = some c)
  | .writeFail _ _ => false
  | .outChunk d => s.child || decide (d ≠ "PS>")
  | _ => true

/-- Every event of the list is a `goodStep` for the state it is applied to. -/
def goodTrace (s : PSState) : List PSEvent → Bool
  | [] => true
  | e :: es => goodStep s e && goodTrace (step s e) es

/-- The queue-discipline invariant of the engine: settled ids are strictly
increasing (promise settlements happened in submission order so far), queue
ids are strictly increasing, every id is below the submission counter, while
the shell is alive the settled ids precede the active command's id which
precedes the queued ids, at most the active command's timer is armed, after
exit the queue is drained, and before initialisation nothing is active. -/
def Inv (s : PSState) : Prop :=
  List.Pairwise (· < ·) (settledOf s) ∧
  List.Pairwise (· < ·) (qIds s) ∧
  (∀ i ∈ settledOf s, i < s.nextId) ∧
  (∀ q ∈ s.cmdQueue, q.id < s.nextId) ∧
  (∀ j ∈ cmdIds s, j < s.nextId) ∧
  (s.child = true → ∀ i ∈ settledOf s, ∀ j ∈ cmdIds s, i < j) ∧
  (s.child = true → ∀ j ∈ cmdIds s, ∀ q ∈ s.cmdQueue, j < q.id) ∧
  (∀ i ∈ settledOf s, ∀ q ∈ s.cmdQueue, i < q.id) ∧
  (s.timers = [] ∨ s.timers = s.cmd.toList) ∧
  (s.child = false → s.cmdQueue = []) ∧
  (s.inited = false → s.cmd = none)

instance instInvDecidable (s : PSState) : Decidable (Inv s) := by
  unfold Inv; exact inferInstance

theorem settleIds_append (t1 t2 : List Obs) :
    settleIds (t1 ++ t2) = settleIds t1 ++ settleIds t2 := by
  induction t1 with
  | nil => rfl
  | cons o rest ih => cases o <;> simp [settleIds, ih]

theorem popQueue_trace (s : PSState) : (popQueue s).trace = s.trace := by
  cases hq : s.cmdQueue <;> simp [popQueue, hq]

theorem popQueue_settled (s : PSState) : settledOf (popQueue s) = settledOf s := by
  unfold settledOf; rw [popQueue_trace]

theorem popQueue_child (s : PSState) : (popQueue s).child = s.child := by
  cases hq : s.cmdQueue <;> simp [popQueue, hq]

theorem popQueue_inited (s : PSState) : (popQueue s).inited = s.inited := by
  cases hq : s.cmdQueue <;> simp [popQueue, hq]

theorem popQueue_nextId (s : PSState) : (popQueue s).nextId = s.nextId := by
  cases hq : s.cmdQueue <;> simp [popQueue, hq]

theorem popQueue_cmdIds_sub (s : PSState) : ∀ j ∈ cmdIds (popQueue s), j ∈ qIds s := by
  cases hq : s.cmdQueue <;> simp [popQueue, hq, cmdIds, qIds]

theorem popQueue_queue_sub (s : PSState) : ∀ q ∈ (popQueue s).cmdQueue, q ∈ s.cmdQueue := by
  cases hq : s.cmdQueue with
  | nil => simp [popQueue, hq]
  | cons c rest =>
      intro q hql
      simp only [popQueue, hq] at hql
      exact List.mem_cons_of_mem c hql

/-- Advancing the queue from a state whose timers are already cleared
preserves the invariant. -/
theorem popQueue_inv (s : PSState)
    (h1 : List.Pairwise (· < ·) (settledOf s))
    (h2 : List.Pairwise (· < ·) (qIds s))
    (h3 : ∀ i ∈ settledOf s, i < s.nextId)
    (h4 : ∀ q ∈ s.cmdQueue, q.id < s.nextId)
    (h5 : ∀ i ∈ settledOf s, ∀ q ∈ s.cmdQueue, i < q.id)
    (h6 : s.child = false → s.cmdQueue = [])
    (h7 : s.timers = [])
    (h8 : s.inited = true) :
    Inv (popQueue s) := by
  cases hq : s.cmdQueue with
  | nil =>
      refine ⟨?_, ?_, ?_, ?_, ?_, ?_, ?_, ?_, ?_, ?_, ?_⟩ <;>
        simp [popQueue, hq, settledOf, qIds, cmdIds, h7, h8]
      · exact h1
      · exact h3
  | cons c rest =>
      have hcq : s.child = true := by
        cases hch : s.child
        · rw [h6 hch] at hq; cases hq
        · rfl
      have hcmem : c ∈ s.cmdQueue := by rw [hq]; exact List.mem_cons_self c rest
      have hrest : ∀ q ∈ rest, q ∈ s.cmdQueue := by
        intro q hql; rw [hq]; exact List.mem_cons_of_mem c hql
      have hqpair : (∀ j ∈ rest.map (fun x => x.id), c.id < j) ∧
          List.Pairwise (· < ·) (rest.map (fun x => x.id)) := by
        have := h2
        rw [qIds, hq] at this
        simpa [List.pairwise_cons] using this
      refine ⟨?_, ?_, ?_, ?_, ?_, ?_, ?_, ?_, ?_, ?_, ?_⟩ <;>
        simp [popQueue, hq, hcq, settledOf, qIds, cmdIds, h7, h8]
      · exact h1
      · exact hqpair.2
      · exact h3
      · intro q hql; exact h4 q (hrest q hql)
      · exact h4 c hcmem
      · intro i hi; exact h5 i hi c hcmem
      · intro q hql
        exact hqpair.1 q.id (List.mem_map_of_mem (fun x => x.id) hql)
      · intro i hi q hql; exact h5 i hi q (hrest q hql)

/-- Invoking `resolve`/`reject` for an id larger than everything settled so
far, and smaller than the active id, the queued ids and the counter,
preserves the invariant. -/
theorem emit_settle_inv (s : PSState) (k : Nat) (o : Outcome)
    (hInv : Inv s)
    (hs : ∀ i ∈ settledOf s, i < k)
    (hc : s.child = true → ∀ j ∈ cmdIds s, k < j)
    (hq : ∀ q ∈ s.cmdQueue, k < q.id)
    (hn : k < s.nextId) :
    Inv (emitObs (.settle k o) s) := by
  obtain ⟨A, B, C, D, E, F, G, H, T, J, K⟩ := hInv
  have hset : settledOf (emitObs (.settle k o) s) = settledOf s ++ [k] := by
    simp [settledOf, emitObs, settleIds_append, settleIds]
  refine ⟨?_, B, ?_, D, E, ?_, G, ?_, T, J, K⟩
  · rw [hset, List.pairwise_append]
    refine ⟨A, List.pairwise_singleton _ _, ?_⟩
    intro i hi j hj
    rw [List.mem_singleton] at hj
    exact hj ▸ hs i hi
  · rw [hset]
    intro i hi
    rcases List.mem_append.1 hi with h | h
    · exact C i h
    · rw [List.mem_singleton] at h
      exact h ▸ hn
  · rw [hset]
    intro hch i hi j hj
    rcases List.mem_append.1 hi with h | h
    · exact F hch i h j hj
    · rw [List.mem_singleton] at h
      exact h ▸ hc hch j hj
  · rw [hset]
    intro i hi q hql
    rcases List.mem_append.1 hi with h | h
    · exact H i h q hql
    · rw [List.mem_singleton] at h
      exact h ▸ hq q hql

/-- The shared shape of normal cycle resolution, command rejection and the
timeout callback: clear the active command's timer, advance the queue, then
settle the command.  Preserves the invariant. -/
theorem advance_inv (s : PSState) (c : PSCmd) (o : Outcome)
    (hInv : Inv s) (hcmd : s.cmd = some c) (hch : s.child = true) :
    Inv (emitObs (.settle c.id o) (popQueue { s with timers := s.timers.erase c })) := by
  obtain ⟨A, B, C, D, E, F, G, H, T, J, K⟩ := hInv
  have hin : s.inited = true := by
    cases hi : s.inited
    · rw [K hi] at hcmd
      cases hcmd
    · rfl
  have hcid : c.id ∈ cmdIds s := by simp [cmdIds, hcmd]
  have hpop : Inv (popQueue { s with timers := s.timers.erase c }) := by
    apply popQueue_inv
    · exact A
    · exact B
    · exact C
    · exact D
    · exact H
    · intro hcf
      rw [show ({ s with timers := s.timers.erase c } : PSState).child = s.child from rfl,
        hch] at hcf
      cases hcf
    · rcases T with h | h
      · simp [h]
      · simp [h, hcmd]
    · exact hin
  refine emit_settle_inv _ _ _ hpop ?_ ?_ ?_ ?_
  · rw [popQueue_settled]
    intro i hi
    exact F hch i hi c.id hcid
  · intro _ j hj
    have hjq : j ∈ qIds { s with timers := s.timers.erase c } :=
      popQueue_cmdIds_sub { s with timers := s.timers.erase c } j hj
    simp only [qIds, List.mem_map] at hjq
    obtain ⟨q, hql, hqe⟩ := hjq
    exact hqe ▸ G hch c.id hcid q hql
  · intro q hql
    have hqm : q ∈ ({ s with timers := s.timers.erase c } : PSState).cmdQueue :=
      popQueue_queue_sub { s with timers := s.timers.erase c } q hql
    exact G hch c.id hcid q hqm
  · rw [popQueue_nextId]
    exact E c.id hcid

/-- States agreeing on every field the invariant mentions satisfy the same
invariant. -/
theorem Inv_of_fields (s s' : PSState)
    (h1 : s'.trace = s.trace) (h2 : s'.cmdQueue = s.cmdQueue) (h3 : s'.cmd = s.cmd)
    (h4 : s'.nextId = s.nextId) (h5 : s'.child = s.child) (h6 : s'.timers = s.timers)
    (h7 : s'.inited = s.inited) (hInv : Inv s) : Inv s' := by
  unfold Inv settledOf qIds cmdIds at *
  rw [h1, h2, h3, h4, h5, h6, h7]
  exact hInv

/-- Appending a fresh command (id = the submission counter) to the queue and
bumping the counter preserves the invariant. -/
theorem enqueue_inv (s : PSState) (q : PSCmd) (hid : q.id = s.nextId)
    (hInv : Inv s) (hch : s.child = true) :
    Inv { s with cmdQueue := s.cmdQueue ++ [q], nextId := s.nextId + 1 } := by
  obtain ⟨A, B, C, D, E, F, G, H, T, J, K⟩ := hInv
  refine ⟨A, ?_, ?_, ?_, ?_, F, ?_, ?_, T, ?_, K⟩
  · show List.Pairwise (· < ·) ((s.cmdQueue ++ [q]).map (fun c => c.id))
    rw [List.map_append, List.pairwise_append]
    refine ⟨B, by simp, ?_⟩
    intro a ha b hb
    simp only [List.map_cons, List.map_nil, List.mem_singleton] at hb
    rw [List.mem_map] at ha
    obtain ⟨qq, hql, hqe⟩ := ha
    rw [hb, hid, ← hqe]
    exact D qq hql
  · intro i hi
    exact Nat.lt_succ_of_lt (C i hi)
  · intro q' hql
    rcases List.mem_append.1 hql with h | h
    · exact Nat.lt_succ_of_lt (D q' h)
    · rw [List.mem_singleton] at h
      rw [h, hid]
      exact Nat.lt_succ_self _
  · intro j hj
    exact Nat.lt_succ_of_lt (E j hj)
  · intro hc j hj q' hql
    rcases List.mem_append.1 hql with h | h
    · exact G hc j hj q' h
    · rw [List.mem_singleton] at h
      rw [h, hid]
      exact E j hj
  · intro i hi q' hql
    rcases List.mem_append.1 hql with h | h
    · exact H i hi q' h
    · rw [List.mem_singleton] at h
      rw [h, hid]
      exact C i hi
  · intro hcf
    have hcf2 : s.child = false := hcf
    rw [hch] at hcf2
    cases hcf2

/-- `exec` preserves the invariant. -/
theorem exec_inv (txt : String) (hasT : Bool) (s : PSState) (hInv : Inv s) :
    Inv (exec txt hasT s).1 := by
  by_cases hch : s.child = true
  · have hs1 := enqueue_inv s { id := s.nextId, cmd := jsTrim txt ++ "\n", hasTimeout := hasT }
      rfl hInv hch
    simp only [exec]
    rw [if_pos hch]
    by_cases hcond : (s.cmd.isNone && s.inited) = true
    · have hnone : s.cmd = none := by
        rw [Bool.and_eq_true, Option.isNone_iff_eq_none] at hcond
        exact hcond.1
      have hini : s.inited = true := by
        rw [Bool.and_eq_true] at hcond
        exact hcond.2
      rw [if_pos (show _ = true by simpa using hcond)]
      obtain ⟨A1, B1, C1, D1, E1, F1, G1, H1, T1, J1, K1⟩ := hs1
      apply popQueue_inv
      · exact A1
      · exact B1
      · exact C1
      · exact D1
      · exact H1
      · exact J1
      · show s.timers = []
        obtain ⟨-, -, -, -, -, -, -, -, T, -, -⟩ := hInv
        rcases T with h | h
        · exact h
        · rw [h, hnone]
          rfl
      · exact hini
    · rw [if_neg (by simpa using hcond)]
      exact hs1
  · have hch2 : s.child = false := by
      revert hch
      cases s.child <;> simp
    simp only [exec]
    rw [if_neg (by rw [hch2]; simp)]
    exact hInv

theorem drainQueue_eq (l : List PSCmd) (s : PSState) :
    drainQueue l s =
      { s with trace := s.trace ++ l.map (fun c => Obs.settle c.id (.rejected (.psError "shell exited"))) } := by
  induction l generalizing s with
  | nil => simp [drainQueue]
  | cons c rest ih => simp [drainQueue, emitObs, ih]

theorem settleIds_map_drain (l : List PSCmd) :
    settleIds (l.map (fun c => Obs.settle c.id (.rejected (.psError "shell exited"))))
      = l.map (fun c => c.id) := by
  induction l with
  | nil => rfl
  | cons c rest ih => simp [settleIds, ih]

/-- The exit handler in one equation: the child handle is dropped, buffered
stderr is surfaced as an `error` event, the `exit` event is emitted, and the
queued commands are rejected in queue order.  The active command and the
armed timers are untouched. -/
theorem exitStep_eq (s : PSState) :
    exitStep s =
      { s with child := false, stderrBuf := "", cmdQueue := [],
               trace := s.trace
                 ++ (if s.stderrBuf = "" then [] else [Obs.errorEvt s.stderrBuf])
                 ++ [Obs.exitEvt]
                 ++ s.cmdQueue.map (fun c => Obs.settle c.id (.rejected (.psError "shell exited"))) } := by
  by_cases hsb : s.stderrBuf = "" <;>
    simp [exitStep, emitObs, drainQueue_eq, hsb]

theorem exit_settled (s : PSState) :
    settledOf (exitStep s) = settledOf s ++ qIds s := by
  by_cases hsb : s.stderrBuf = "" <;>
    simp [settledOf, exitStep_eq, hsb, settleIds_append, settleIds, settleIds_map_drain, qIds]

/-- The exit handler preserves the invariant. -/
theorem exit_inv (s : PSState) (hInv : Inv s) : Inv (exitStep s) := by
  obtain ⟨A, B, C, D, E, F, G, H, T, J, K⟩ := hInv
  have hset := exit_settled s
  have hq : (exitStep s).cmdQueue = [] := by rw [exitStep_eq]
  have hcmd : (exitStep s).cmd = s.cmd := by rw [exitStep_eq]
  have htm : (exitStep s).timers = s.timers := by rw [exitStep_eq]
  have hnext : (exitStep s).nextId = s.nextId := by rw [exitStep_eq]
  have hchf : (exitStep s).child = false := by rw [exitStep_eq]
  have hini : (exitStep s).inited = s.inited := by rw [exitStep_eq]
  refine ⟨?_, ?_, ?_, ?_, ?_, ?_, ?_, ?_, ?_, ?_, ?_⟩
  · rw [show settledOf (exitStep s) = settledOf s ++ qIds s from hset, List.pairwise_append]
    refine ⟨A, B, ?_⟩
    intro i hi j hj
    rw [qIds, List.mem_map] at hj
    obtain ⟨q, hql, hqe⟩ := hj
    exact hqe ▸ H i hi q hql
  · rw [qIds, hq]
    exact List.Pairwise.nil
  · rw [hset, hnext]
    intro i hi
    rcases List.mem_append.1 hi with h | h
    · exact C i h
    · rw [qIds, List.mem_map] at h
      obtain ⟨q, hql, hqe⟩ := h
      exact hqe ▸ D q hql
  · rw [hq]
    intro q hql
    cases hql
  · rw [hnext]
    intro j hj
    rw [cmdIds, hcmd] at hj
    exact E j hj
  · rw [hchf]
    intro hcf
    cases hcf
  · rw [hchf]
    intro hcf
    cases hcf
  · rw [hq]
    intro i _ q hql
    cases hql
  · rw [htm, hcmd]
    exact T
  · intro _
    rw [hq]
  · rw [hini, hcmd]
    exact K

/-- `rejectCmd` preserves the invariant while the shell is alive and
initialised. -/
theorem rejectCmd_inv (r : RejReason) (s : PSState) (hInv : Inv s)
    (hch : s.child = true) (hin : s.inited = true) : Inv (rejectCmd r s) := by
  unfold rejectCmd
  split
  · rename_i hcmd
    obtain ⟨A, B, C, D, E, F, G, H, T, J, K⟩ := hInv
    apply popQueue_inv
    · exact A
    · exact B
    · exact C
    · exact D
    · exact H
    · exact J
    · rcases T with h | h
      · exact h
      · rw [h, hcmd]
        rfl
    · exact hin
  · rename_i c hcmd
    exact advance_inv s c _ hInv hcmd hch

/-- `resolveCmd` preserves the invariant while the shell is alive and
initialised. -/
theorem resolveCmd_inv (s : PSState) (hInv : Inv s)
    (hch : s.child = true) (hin : s.inited = true) : Inv (resolveCmd s) := by
  unfold resolveCmd
  by_cases hsb : s.stderrBuf ≠ ""
  · rw [if_pos hsb]
    exact rejectCmd_inv _ s hInv hch hin
  · rw [if_neg hsb]
    split
    · exact Inv_of_fields s _ rfl rfl rfl rfl rfl rfl rfl hInv
    · rename_i c hcmd
      by_cases hecho : jsStartsWith s.stdoutBuf c.cmd = true
      · rw [if_neg (by rw [hecho]; decide)]
        exact advance_inv s c _ hInv hcmd hch
      · have hecho2 : jsStartsWith s.stdoutBuf c.cmd = false := by
          revert hecho
          cases jsStartsWith s.stdoutBuf c.cmd <;> simp
        rw [if_pos (by rw [hecho2]; rfl)]
        exact rejectCmd_inv _ s hInv hch hin

/-- Any `goodStep` event preserves the invariant. -/
theorem step_inv (s : PSState) (e : PSEvent) (hInv : Inv s) (hg : goodStep s e = true) :
    Inv (step s e) := by
  cases hcr : s.crashed with
  | true => simpa [step, hcr] using hInv
  | false =>
      cases e with
      | spawnConfirm =>
          cases hch : s.child with
          | false => simpa [step, hcr, hch] using hInv
          | true =>
              have hred : step s .spawnConfirm = { s with spawned := true } := by
                simp [step, hcr, hch]
              rw [hred]
              exact Inv_of_fields s _ rfl rfl rfl rfl rfl rfl rfl hInv
      | execReq txt hasT =>
          have hred : step s (.execReq txt hasT) = (exec txt hasT s).1 := by simp [step, hcr]
          rw [hred]
          exact exec_inv txt hasT s hInv
      | outChunk d =>
          have hred : step s (.outChunk d) = processStdOut d s := by simp [step, hcr]
          rw [hred]
          unfold processStdOut
          by_cases hd : d = "PS>"
          · have hch : s.child = true := by
              simpa [goodStep, hd] using hg
            rw [if_pos hd]
            by_cases hin : s.inited = true
            · rw [if_neg (by rw [hin]; decide)]
              exact resolveCmd_inv s hInv hch hin
            · have hin0 : s.inited = false := by
                revert hin
                cases s.inited <;> simp
              rw [if_pos (by rw [hin0]; rfl)]
              obtain ⟨A, B, C, D, E, F, G, H, T, J, K⟩ := hInv
              apply popQueue_inv
              · exact A
              · exact B
              · exact C
              · exact D
              · exact H
              · intro hcf
                have hcf2 : s.child = false := hcf
                rw [hch] at hcf2
                cases hcf2
              · show s.timers = []
                rcases T with h | h
                · exact h
                · rw [h, K hin0]
                  rfl
              · rfl
          · rw [if_neg hd]
            by_cases hin : s.inited = true
            · rw [if_pos hin]
              exact Inv_of_fields s _ rfl rfl rfl rfl rfl rfl rfl hInv
            · rw [if_neg hin]
              exact hInv
      | errChunk d =>
          have hred : step s (.errChunk d) = processStdErr d s := by simp [step, hcr]
          rw [hred]
          exact Inv_of_fields s _ rfl rfl rfl rfl rfl rfl rfl hInv
      | writeDone c =>
          have hred : step s (.writeDone c) = { s with pendingWrites := s.pendingWrites.erase c } := by
            simp [step, hcr]
          rw [hred]
          exact Inv_of_fields s _ rfl rfl rfl rfl rfl rfl rfl hInv
      | writeFail c msg => simp [goodStep] at hg
      | timerFire c =>
          have hgc : s.child = true ∧ s.cmd = some c := by
            simpa [goodStep, Bool.and_eq_true, decide_eq_true_eq] using hg
          by_cases hmem : c ∈ s.timers
          · have hred : step s (.timerFire c) =
                emitObs (.settle c.id (.rejected (.psTimeout ("exec timeout: " ++ jsTrimEnd c.cmd))))
                  (popQueue { s with timers := s.timers.erase c }) := by
              simp [step, hcr, hmem]
            rw [hred]
            exact advance_inv s c _ hInv hgc.2 hgc.1
          · have hred : step s (.timerFire c) = s := by simp [step, hcr, hmem]
            rw [hred]
            exact hInv
      | exited =>
          cases hch : s.child with
          | false => simpa [step, hcr, hch] using hInv
          | true =>
              have hred : step s .exited = exitStep s := by simp [step, hcr, hch]
              rw [hred]
              exact exit_inv s hInv

/-- A run of `goodStep` events preserves the invariant. -/
theorem runGood_inv (es : List PSEvent) (s : PSState) (hInv : Inv s)
    (hg : goodTrace s es = true) : Inv (run s es) := by
  induction es generalizing s with
  | nil => exact hInv
  | cons e rest ih =>
      simp only [goodTrace, Bool.and_eq_true] at hg
      exact ih (step s e) (step_inv s e hInv hg.1) hg.2

theorem popQueue_stdoutBuf (s : PSState) : (popQueue s).stdoutBuf = "" := by
  cases hq : s.cmdQueue <;> simp [popQueue, hq]

theorem popQueue_stderrBuf (s : PSState) : (popQueue s).stderrBuf = "" := by
  cases hq : s.cmdQueue <;> simp [popQueue, hq]

/-- `#reject` with an active command: the command's promise is rejected with
the given reason (and nothing else is settled in this call). -/
theorem rejectCmd_trace (r : RejReason) (s : PSState) (c : PSCmd) (hcmd : s.cmd = some c) :
    (rejectCmd r s).trace = s.trace ++ [Obs.settle c.id (.rejected r)] := by
  unfold rejectCmd
  split
  · rename_i h
    rw [hcmd] at h
    cases h
  · rename_i c2 h
    rw [hcmd] at h
    injection h with h2
    subst h2
    simp [emitObs, popQueue_trace]

/-- JS `s.substring(0, k)` for non-positive `k` is the empty string (both
indices clamp to 0). -/
theorem jsSubstring_zero_nonpos (data : String) (k : Int) (hk : k ≤ 0) :
    jsSubstring data 0 k = "" := by
  simp only [jsSubstring]
  have hn : (0 : Int) ≤ Int.ofNat data.length := Int.ofNat_nonneg _
  rw [min_eq_left hn, min_eq_left (le_trans hk hn), max_eq_left hk]
  simp
  rfl

/-- Dropping a string's own length of code units leaves the empty string. -/
theorem jsDrop_length (t : String) : jsDrop t t.length = "" := by
  unfold jsDrop
  rw [show t.length = t.data.length from rfl, List.drop_length]
  rfl

/-!
## The claims

The session protocol engine is `src/PowerShell.js`; the claims also cite the
later iteration of the same class in `src/unnamed/part_001`, embedded above
as `resolveCmdB`/`processStdOutB` where the two differ.
-/

/-- C1 (corrected): in every execution made of normal-operation events
(`goodTrace`: no failing stdin write, timers fire only for the command that
is still active while the shell is alive, and every sentinel chunk on
stdout is delivered while the subprocess is alive), the `resolve`/`reject`
invocations hit the commands in strictly increasing submission order — the
queue is strict FIFO.  The correction (see `c1_counterexample`): subprocess
exit cancels neither the armed timeout timers nor the stdout stream
handlers, so a stale timer firing after exit, or a buffered prompt chunk
delivered after exit, settles the still-active command only after the exit
drain already rejected every later-queued command — outside the `goodTrace`
envelope, settlement order can be reordered. -/
theorem c1_fifo_settlement_order (es : List PSEvent)
    (hg : goodTrace readyState es = true) :
    List.Pairwise (· < ·) (settleIds (run readyState es).trace) :=
  (runGood_inv es readyState (by decide) hg).1

def c1WitnessEvents : List PSEvent :=
  [.execReq "a" false, .outChunk "a\nhi\n", .outChunk "PS>", .execReq "b" false,
   .outChunk "b\n", .outChunk "PS>"]

theorem c1_fifo_settlement_order_witness :
    goodTrace readyState c1WitnessEvents = true ∧
    List.Pairwise (· < ·) (settleIds (run readyState c1WitnessEvents).trace) :=
  ⟨by decide, c1_fifo_settlement_order c1WitnessEvents (by decide)⟩

def c1CmdT : PSCmd := { id := 0, cmd := "a\n", hasTimeout := true }

/-- The stale-timer trace: command 0 is dispatched with a timeout armed,
command 1 is queued, the subprocess exits (rejecting only the queued command
1), and then command 0's still-armed timer fires and rejects it — after
command 1. -/
def c1ReorderEvents : List PSEvent :=
  [.execReq "a" true, .writeDone c1CmdT, .execReq "b" false, .exited, .timerFire c1CmdT]

/-- The late-buffered-chunk trace, all of it normal operation: command 0 is
dispatched, command 1 queued, command 0's output (not yet followed by the
prompt) arrives, the subprocess exits — the exit drain rejects the queued
command 1 — and only then does Node deliver the buffered prompt chunk, which
the surviving stdout handler feeds to `#resolveCmd`, resolving command 0
after command 1 was rejected. -/
def c1LateChunkEvents : List PSEvent :=
  [.execReq "a" false, .execReq "b" false, .outChunk "a\nok\n", .exited, .outChunk "PS>"]

/-- C1 counterexample: on both the stale-timer trace `c1ReorderEvents` and
the buffered-chunk-after-exit trace `c1LateChunkEvents` the settlement order
is `[1, 0]` — command 1's outcome settles before command 0's, refuting
"outcomes settle in exactly the order the commands were submitted, never
reordered" for the unrestricted engine. -/
theorem c1_counterexample :
    settleIds (run readyState c1ReorderEvents).trace = [1, 0] ∧
    ¬ List.Pairwise (· < ·) (settleIds (run readyState c1ReorderEvents).trace) ∧
    settleIds (run readyState c1LateChunkEvents).trace = [1, 0] ∧
    ¬ List.Pairwise (· < ·) (settleIds (run readyState c1LateChunkEvents).trace) := by
  decide

def c2CmdA : PSCmd := { id := 0, cmd := "a\n", hasTimeout := false }

/-- Command 0 is active (its stdin write completed), command 1 queued, and
the subprocess exits. -/
def c2ExitedState : PSState :=
  run readyState [.execReq "a" false, .writeDone c2CmdA, .execReq "b" false, .exited]

/-- Events that can still occur after an exit whose subprocess died without
leaving a buffered prompt: everything except a sentinel chunk on stdout
(the stream handlers do survive the exit handler, so a *buffered* sentinel
chunk would still reach `#resolveCmd`; when the process is killed before
printing its next prompt — the scenario of the claim — no such chunk
exists). -/
def quietEvent : PSEvent → Bool
  | PSEvent.outChunk d => decide (d ≠ "PS>")
  | _ => true

/-- In a drained post-exit state (no child, empty queue, no armed timers, no
outstanding writes), any event other than a sentinel stdout chunk leaves the
drained shape intact and appends nothing to the trace: `exec` throws before
mutating, stream chunks only grow the accumulators, and the guarded
callbacks cannot fire. -/
theorem quiet_step_fields (s : PSState) (e : PSEvent)
    (h1 : s.child = false) (h2 : s.cmdQueue = []) (h3 : s.timers = [])
    (h4 : s.pendingWrites = []) (h5 : ∀ d, e = PSEvent.outChunk d → d ≠ "PS>") :
    (step s e).child = false ∧ (step s e).cmdQueue = [] ∧ (step s e).timers = [] ∧
    (step s e).pendingWrites = [] ∧ (step s e).trace = s.trace := by
  cases hcr : s.crashed with
  | true =>
      have hred : step s e = s := by simp [step, hcr]
      rw [hred]
      exact ⟨h1, h2, h3, h4, rfl⟩
  | false =>
      cases e with
      | spawnConfirm =>
          have hred : step s .spawnConfirm = s := by simp [step, hcr, h1]
          rw [hred]
          exact ⟨h1, h2, h3, h4, rfl⟩
      | execReq txt hasT =>
          have hred : step s (.execReq txt hasT) = s := by simp [step, hcr, exec, h1]
          rw [hred]
          exact ⟨h1, h2, h3, h4, rfl⟩
      | outChunk d =>
          have hd : d ≠ "PS>" := h5 d rfl
          have hred : step s (.outChunk d) = processStdOut d s := by simp [step, hcr]
          rw [hred]
          unfold processStdOut
          rw [if_neg hd]
          by_cases hin : s.inited = true
          · rw [if_pos hin]
            exact ⟨h1, h2, h3, h4, rfl⟩
          · rw [if_neg hin]
            exact ⟨h1, h2, h3, h4, rfl⟩
      | errChunk d =>
          have hred : step s (.errChunk d) = processStdErr d s := by simp [step, hcr]
          rw [hred]
          exact ⟨h1, h2, h3, h4, rfl⟩
      | writeDone c =>
          have hred : step s (.writeDone c) = { s with pendingWrites := s.pendingWrites.erase c } := by
            simp [step, hcr]
          rw [hred]
          exact ⟨h1, h2, h3, by simp [h4], rfl⟩
      | writeFail c msg =>
          have hred : step s (.writeFail c msg) = s := by simp [step, hcr, h4]
          rw [hred]
          exact ⟨h1, h2, h3, h4, rfl⟩
      | timerFire c =>
          have hred : step s (.timerFire c) = s := by simp [step, hcr, h3]
          rw [hred]
          exact ⟨h1, h2, h3, h4, rfl⟩
      | exited =>
          have hred : step s .exited = s := by simp [step, hcr, h1]
          rw [hred]
          exact ⟨h1, h2, h3, h4, rfl⟩

/-- Running any list of `quietEvent`s over a drained post-exit state never
touches the trace. -/
theorem quiet_run_trace (es : List PSEvent) :
    ∀ s : PSState, s.child = false → s.cmdQueue = [] → s.timers = [] →
      s.pendingWrites = [] → (∀ e ∈ es, quietEvent e = true) →
      (run s es).trace = s.trace := by
  induction es with
  | nil =>
      intro s _ _ _ _ _
      rfl
  | cons e rest ih =>
      intro s h1 h2 h3 h4 hq
      have h5 : ∀ d, e = PSEvent.outChunk d → d ≠ "PS>" := by
        intro d hd
        have hqe := hq e (List.mem_cons_self e rest)
        rw [hd] at hqe
        simpa [quietEvent] using hqe
      obtain ⟨q1, q2, q3, q4, q5⟩ := quiet_step_fields s e h1 h2 h3 h4 h5
      have hrun : run s (e :: rest) = run (step s e) rest := rfl
      rw [hrun, ih (step s e) q1 q2 q3 q4 (fun e2 he2 => hq e2 (List.mem_cons_of_mem e he2)), q5]

/-- C2 (code bug): the exit handler drains only `#cmdQueue`; the active
command (`#cmd`) is never rejected.  On `c2ExitedState` the queued command 1
was rejected but command 0 — active at exit time — has no settlement in the
trace.  The stdio handlers survive the exit, so a *buffered* prompt chunk
delivered afterwards could still settle command 0 through the ordinary
resolution path (never with the claimed "process exited" rejection); but
when the subprocess dies without having emitted its next prompt — the very
scenario the claim covers — no such chunk exists, and then no continuation
of events ever appends anything to the trace: command 0's promise never
settles, so "outcome settles exactly once per Command" fails with zero
settlements. -/
theorem c2_exit_never_settles_active :
    c2ExitedState.cmd = some c2CmdA ∧
    settleIds c2ExitedState.trace = [1] ∧
    0 ∉ settleIds c2ExitedState.trace ∧
    (∀ es : List PSEvent,
      (run c2ExitedState (es.filter quietEvent)).trace = c2ExitedState.trace) ∧
    (∀ es : List PSEvent,
      0 ∉ settleIds (run c2ExitedState (es.filter quietEvent)).trace) := by
  have htr : ∀ es : List PSEvent,
      (run c2ExitedState (es.filter quietEvent)).trace = c2ExitedState.trace := by
    intro es
    exact quiet_run_trace (es.filter quietEvent) c2ExitedState (by decide) (by decide)
      (by decide) (by decide) (fun e he => List.of_mem_filter he)
  refine ⟨by decide, by decide, by decide, htr, ?_⟩
  intro es
  rw [htr es]
  decide

/-- C3 (corrected, amended behaviour): in `src/PowerShell.js` a cycle
completes exactly when one arriving chunk *equals* the sentinel `"PS>"`; any
other chunk (even one that makes the accumulated buffer end with the
sentinel) is appended without settling anything, so the sentinel never needs
stripping — the buffer is handed on as is.  In `src/unnamed/part_001` a chunk
merely *ending* with the sentinel completes the cycle, but
`substring(0, -sentinel.length)` evaluates to the empty string, so the whole
boundary chunk — result text included — is discarded. -/
theorem c3_per_chunk_boundary (s : PSState) (data : String)
    (hch : s.child = true) (hcr : s.crashed = false) (hin : s.inited = true) :
    (data = "PS>" → step s (.outChunk data) = resolveCmd s) ∧
    (data ≠ "PS>" →
        step s (.outChunk data) = { s with stdoutBuf := s.stdoutBuf ++ data } ∧
        settleIds (step s (.outChunk data)).trace = settleIds s.trace) ∧
    jsSubstring data 0 (0 - 3) = "" ∧
    (jsEndsWith data "PS>" = true → processStdOutB data s = resolveCmdB s) := by
  refine ⟨?_, ?_, jsSubstring_zero_nonpos data (0 - 3) (by decide), ?_⟩
  · intro hd
    subst hd
    simp [step, hcr, hch, processStdOut, hin]
  · intro hd
    have hstep : step s (.outChunk data) = { s with stdoutBuf := s.stdoutBuf ++ data } := by
      simp [step, hcr, hch, processStdOut, hd, hin]
    exact ⟨hstep, by rw [hstep]⟩
  · intro hend
    simp only [processStdOutB]
    rw [if_pos hend, if_neg (by rw [hin]; decide)]
    rw [jsSubstring_zero_nonpos data (0 - 3) (by decide)]
    rw [show s.stdoutBuf ++ "" = s.stdoutBuf from by simp]

def c3WitState : PSState := run readyState [.execReq "x" false]

theorem c3_per_chunk_boundary_witness :
    (c3WitState.child = true ∧ c3WitState.crashed = false ∧ c3WitState.inited = true) ∧
    (("4\nPS>" : String) = "PS>" → step c3WitState (.outChunk "4\nPS>") = resolveCmd c3WitState) ∧
    (("4\nPS>" : String) ≠ "PS>" →
        step c3WitState (.outChunk "4\nPS>")
          = { c3WitState with stdoutBuf := c3WitState.stdoutBuf ++ "4\nPS>" } ∧
        settleIds (step c3WitState (.outChunk "4\nPS>")).trace = settleIds c3WitState.trace) ∧
    jsSubstring "4\nPS>" 0 (0 - 3) = "" ∧
    (jsEndsWith "4\nPS>" "PS>" = true → processStdOutB "4\nPS>" c3WitState = resolveCmdB c3WitState) :=
  ⟨⟨by decide, by decide, by decide⟩,
    c3_per_chunk_boundary c3WitState "4\nPS>" (by decide) (by decide) (by decide)⟩

def c3CexState : PSState := run readyState [.execReq "x" false]

/-- C3 counterexample: command 0 is active with an empty buffer; the chunk
`"x\n4\nPS>"` makes the buffer's trailing content equal the sentinel, so by
the claim the cycle must complete (settling command 0) with the sentinel
stripped — but the code settles nothing and leaves the sentinel inside the
buffer; likewise a sentinel split across the chunks `"P"`, `"S>"` is never
detected. -/
theorem c3_counterexample :
    jsEndsWith (c3CexState.stdoutBuf ++ "x\n4\nPS>") "PS>" = true ∧
    settleIds (step c3CexState (.outChunk "x\n4\nPS>")).trace = [] ∧
    (step c3CexState (.outChunk "x\n4\nPS>")).stdoutBuf = "x\n4\nPS>" ∧
    jsEndsWith ((run c3CexState [.outChunk "x\n4\n", .outChunk "P", .outChunk "S>"]).stdoutBuf) "PS>" = true ∧
    settleIds (run c3CexState [.outChunk "x\n4\n", .outChunk "P", .outChunk "S>"]).trace = [] := by
  decide

/-- C4 (corrected, amended behaviour): on exit while the session is open,
the engine first surfaces buffered stderr as a general `error` notification,
then delivers the general `exit` notification, and only after that rejects
the *queued* commands with the "shell exited" error, in FIFO (submission)
order; the active command is left untouched and is never rejected. -/
theorem c4_exit_order (s : PSState) (hInv : Inv s) (hch : s.child = true)
    (hcr : s.crashed = false) :
    (step s .exited).trace =
      s.trace ++ (if s.stderrBuf = "" then [] else [Obs.errorEvt s.stderrBuf]) ++ [Obs.exitEvt]
        ++ s.cmdQueue.map (fun c => Obs.settle c.id (.rejected (.psError "shell exited"))) ∧
    List.Pairwise (· < ·) (qIds s) ∧
    (step s .exited).cmd = s.cmd ∧
    settleIds (step s .exited).trace = settleIds s.trace ++ qIds s := by
  have hred : step s .exited = exitStep s := by simp [step, hcr, hch]
  refine ⟨?_, hInv.2.1, ?_, ?_⟩
  · rw [hred, exitStep_eq]
  · rw [hred, exitStep_eq]
  · rw [hred]
    exact exit_settled s

def c4WitState : PSState :=
  run readyState [.execReq "a" false, .execReq "b" false, .errChunk "oops"]

theorem c4_exit_order_witness :
    (Inv c4WitState ∧ c4WitState.child = true ∧ c4WitState.crashed = false) ∧
    ((step c4WitState .exited).trace =
        c4WitState.trace
          ++ (if c4WitState.stderrBuf = "" then [] else [Obs.errorEvt c4WitState.stderrBuf])
          ++ [Obs.exitEvt]
          ++ c4WitState.cmdQueue.map (fun c => Obs.settle c.id (.rejected (.psError "shell exited"))) ∧
      List.Pairwise (· < ·) (qIds c4WitState) ∧
      (step c4WitState .exited).cmd = c4WitState.cmd ∧
      settleIds (step c4WitState .exited).trace = settleIds c4WitState.trace ++ qIds c4WitState) :=
  ⟨⟨by decide, by decide, by decide⟩,
    c4_exit_order c4WitState (by decide) (by decide) (by decide)⟩

def c4CexState : PSState :=
  run readyState [.execReq "a" false,
    .writeDone { id := 0, cmd := "a\n", hasTimeout := false },
    .execReq "b" false, .errChunk "oops"]

/-- C4 counterexample: command 0 active, command 1 queued, stderr buffered.
The claim requires the rejections (of commands 0 and 1) to happen *before*
the general exit notification; the computed trace has the exit notification
at position 1 and the only rejection (of the queued command 1) after it at
position 2, and command 0 — the active one — is never rejected at all. -/
theorem c4_counterexample :
    (step c4CexState .exited).trace =
      [Obs.errorEvt "oops", Obs.exitEvt, Obs.settle 1 (.rejected (.psError "shell exited"))] ∧
    (step c4CexState .exited).trace.get? 1 = some Obs.exitEvt ∧
    (step c4CexState .exited).trace.get? 2
      = some (Obs.settle 1 (.rejected (.psError "shell exited"))) ∧
    0 ∉ settleIds (step c4CexState .exited).trace ∧
    c4CexState.cmd = some { id := 0, cmd := "a\n", hasTimeout := false } := by
  decide

/-- C5 (confirmed): at cycle resolution with non-empty stderr, the active
command is rejected with the trimmed stderr text as the message, and the
accumulated stdout is not examined — the same rejection results for every
stdout content.  (`src/PowerShell.js` rejects with the trimmed stderr string
itself; part_001 wraps it in `PowerShellExecError`; the carried message is
the trimmed stderr text in both.) -/
theorem c5_stderr_precedence (s : PSState) (c : PSCmd)
    (hcmd : s.cmd = some c) (hs : s.stderrBuf ≠ "") :
    (∀ out : String, (resolveCmd { s with stdoutBuf := out }).trace
        = s.trace ++ [Obs.settle c.id (.rejected (.str (jsTrim s.stderrBuf)))]) ∧
    (∀ out : String, (resolveCmdB { s with stdoutBuf := out }).trace
        = s.trace ++ [Obs.settle c.id (.rejected (.execError (jsTrim s.stderrBuf)))]) ∧
    RejReason.message (.str (jsTrim s.stderrBuf)) = jsTrim s.stderrBuf ∧
    RejReason.message (.execError (jsTrim s.stderrBuf)) = jsTrim s.stderrBuf := by
  refine ⟨?_, ?_, rfl, rfl⟩
  · intro out
    unfold resolveCmd
    rw [if_pos (show ({ s with stdoutBuf := out } : PSState).stderrBuf ≠ "" from hs)]
    exact rejectCmd_trace _ _ c hcmd
  · intro out
    unfold resolveCmdB
    rw [if_pos (show ({ s with stdoutBuf := out } : PSState).stderrBuf ≠ "" from hs)]
    exact rejectCmd_trace _ _ c hcmd

def c5WitState : PSState := run readyState [.execReq "a" false, .errChunk "boom "]
def c5WitCmd : PSCmd := { id := 0, cmd := "a\n", hasTimeout := false }

theorem c5_stderr_precedence_witness :
    (c5WitState.cmd = some c5WitCmd ∧ c5WitState.stderrBuf ≠ "") ∧
    ((∀ out : String, (resolveCmd { c5WitState with stdoutBuf := out }).trace
        = c5WitState.trace ++ [Obs.settle c5WitCmd.id (.rejected (.str (jsTrim c5WitState.stderrBuf)))]) ∧
      (∀ out : String, (resolveCmdB { c5WitState with stdoutBuf := out }).trace
        = c5WitState.trace ++ [Obs.settle c5WitCmd.id (.rejected (.execError (jsTrim c5WitState.stderrBuf)))]) ∧
      RejReason.message (.str (jsTrim c5WitState.stderrBuf)) = jsTrim c5WitState.stderrBuf ∧
      RejReason.message (.execError (jsTrim c5WitState.stderrBuf)) = jsTrim c5WitState.stderrBuf) :=
  ⟨⟨by decide, by decide⟩, c5_stderr_precedence c5WitState c5WitCmd (by decide) (by decide)⟩

/-- C6 (corrected, amended behaviour): at cycle resolution with empty
stderr, `src/PowerShell.js` checks that the accumulated stdout begins with
the submitted command text *without* trimming leading whitespace, rejecting
with the protocol ("data does not start with command") error exactly when
that untrimmed check fails; only the part_001 iteration trims leading
whitespace first, as the claim states. -/
theorem c6_echo_check (s : PSState) (c : PSCmd)
    (hcmd : s.cmd = some c) (hs : s.stderrBuf = "") :
    (resolveCmd s).trace = s.trace ++ [Obs.settle c.id
        (if jsStartsWith s.stdoutBuf c.cmd then
          Outcome.resolved (jsTrimEnd (jsDrop s.stdoutBuf c.cmd.length))
        else Outcome.rejected (.psError ("data does not start with command: " ++ c.cmd)))] ∧
    (resolveCmdB s).trace = s.trace ++ [Obs.settle c.id
        (if jsStartsWith (jsTrimStart s.stdoutBuf) c.cmd then
          Outcome.resolved (jsTrimEnd (jsDrop (jsTrimStart s.stdoutBuf) c.cmd.length))
        else Outcome.rejected (.psError ("stdout does not start with command: " ++ c.cmd)))] := by
  constructor
  · unfold resolveCmd
    rw [if_neg (by rw [hs]; simp), hcmd]
    show (if (!jsStartsWith s.stdoutBuf c.cmd) = true then
        rejectCmd (.psError ("data does not start with command: " ++ c.cmd)) s
      else emitObs (Obs.settle c.id (.resolved (jsTrimEnd (jsDrop s.stdoutBuf c.cmd.length))))
        (popQueue { s with timers := s.timers.erase c })).trace = _
    by_cases hecho : jsStartsWith s.stdoutBuf c.cmd = true
    · rw [if_neg (by rw [hecho]; decide), if_pos hecho]
      simp [emitObs, popQueue_trace]
    · have hecho2 : jsStartsWith s.stdoutBuf c.cmd = false := by
        revert hecho
        cases jsStartsWith s.stdoutBuf c.cmd <;> simp
      rw [if_pos (by rw [hecho2]; rfl), if_neg (by rw [hecho2]; decide)]
      exact rejectCmd_trace _ _ c hcmd
  · unfold resolveCmdB
    rw [if_neg (by rw [hs]; simp), hcmd]
    show (if (!jsStartsWith (jsTrimStart s.stdoutBuf) c.cmd) = true then
        rejectCmd (.psError ("stdout does not start with command: " ++ c.cmd)) s
      else emitObs (Obs.settle c.id (.resolved (jsTrimEnd (jsDrop (jsTrimStart s.stdoutBuf) c.cmd.length))))
        (popQueue { s with timers := s.timers.erase c })).trace = _
    by_cases hecho : jsStartsWith (jsTrimStart s.stdoutBuf) c.cmd = true
    · rw [if_neg (by rw [hecho]; decide), if_pos hecho]
      simp [emitObs, popQueue_trace]
    · have hecho2 : jsStartsWith (jsTrimStart s.stdoutBuf) c.cmd = false := by
        revert hecho
        cases jsStartsWith (jsTrimStart s.stdoutBuf) c.cmd <;> simp
      rw [if_pos (by rw [hecho2]; rfl), if_neg (by rw [hecho2]; decide)]
      exact rejectCmd_trace _ _ c hcmd

def c6WitState : PSState := run readyState [.execReq "p" false, .outChunk "p\nout\n"]
def c6WitCmd : PSCmd := { id := 0, cmd := "p\n", hasTimeout := false }

theorem c6_echo_check_witness :
    (c6WitState.cmd = some c6WitCmd ∧ c6WitState.stderrBuf = "") ∧
    ((resolveCmd c6WitState).trace = c6WitState.trace ++ [Obs.settle c6WitCmd.id
        (if jsStartsWith c6WitState.stdoutBuf c6WitCmd.cmd then
          Outcome.resolved (jsTrimEnd (jsDrop c6WitState.stdoutBuf c6WitCmd.cmd.length))
        else Outcome.rejected (.psError ("data does not start with command: " ++ c6WitCmd.cmd)))] ∧
      (resolveCmdB c6WitState).trace = c6WitState.trace ++ [Obs.settle c6WitCmd.id
        (if jsStartsWith (jsTrimStart c6WitState.stdoutBuf) c6WitCmd.cmd then
          Outcome.resolved (jsTrimEnd (jsDrop (jsTrimStart c6WitState.stdoutBuf) c6WitCmd.cmd.length))
        else Outcome.rejected (.psError ("stdout does not start with command: " ++ c6WitCmd.cmd)))]) :=
  ⟨⟨by decide, by decide⟩, c6_echo_check c6WitState c6WitCmd (by decide) (by decide)⟩

def c6CexState : PSState := run readyState [.execReq "x" false, .outChunk " x\n"]

/-- C6 counterexample: the accumulated stdout `" x\n"` begins with the
command text `"x\n"` *after* trimming leading whitespace, so by the claim
the echo check passes and no protocol rejection may occur — but
`src/PowerShell.js` (which performs no trimming) rejects command 0 with the
protocol error. -/
theorem c6_counterexample :
    jsStartsWith (jsTrimStart c6CexState.stdoutBuf) "x\n" = true ∧
    c6CexState.stderrBuf = "" ∧
    (step c6CexState (.outChunk "PS>")).trace
      = [Obs.settle 0 (.rejected (.psError "data does not start with command: x\n"))] := by
  decide

/-- C7 (confirmed): at cycle resolution with empty stderr and a passing echo
check, the active command resolves with the accumulated stdout minus the
echoed command prefix, trailing whitespace trimmed; a command whose output
is empty (stdout = the echo alone) resolves with the empty string. -/
theorem c7_resolve_strips_echo (s : PSState) (c : PSCmd)
    (hcmd : s.cmd = some c) (hs : s.stderrBuf = "")
    (hecho : jsStartsWith s.stdoutBuf c.cmd = true) :
    (resolveCmd s).trace
        = s.trace ++ [Obs.settle c.id (.resolved (jsTrimEnd (jsDrop s.stdoutBuf c.cmd.length)))] ∧
    (s.stdoutBuf = c.cmd →
        (resolveCmd s).trace = s.trace ++ [Obs.settle c.id (.resolved "")]) := by
  have h1 : (resolveCmd s).trace
      = s.trace ++ [Obs.settle c.id (.resolved (jsTrimEnd (jsDrop s.stdoutBuf c.cmd.length)))] := by
    unfold resolveCmd
    rw [if_neg (by rw [hs]; simp), hcmd]
    show (if (!jsStartsWith s.stdoutBuf c.cmd) = true then
        rejectCmd (.psError ("data does not start with command: " ++ c.cmd)) s
      else emitObs (Obs.settle c.id (.resolved (jsTrimEnd (jsDrop s.stdoutBuf c.cmd.length))))
        (popQueue { s with timers := s.timers.erase c })).trace = _
    rw [if_neg (by rw [hecho]; decide)]
    simp [emitObs, popQueue_trace]
  refine ⟨h1, ?_⟩
  intro hout
  rw [h1, hout, jsDrop_length]
  rfl

def c7WitState : PSState := run readyState [.execReq "a" false, .outChunk "a\n"]
def c7WitCmd : PSCmd := { id := 0, cmd := "a\n", hasTimeout := false }

theorem c7_resolve_strips_echo_witness :
    (c7WitState.cmd = some c7WitCmd ∧ c7WitState.stderrBuf = "" ∧
      jsStartsWith c7WitState.stdoutBuf c7WitCmd.cmd = true) ∧
    ((resolveCmd c7WitState).trace = c7WitState.trace
        ++ [Obs.settle c7WitCmd.id (.resolved (jsTrimEnd (jsDrop c7WitState.stdoutBuf c7WitCmd.cmd.length)))] ∧
      (c7WitState.stdoutBuf = c7WitCmd.cmd →
        (resolveCmd c7WitState).trace = c7WitState.trace ++ [Obs.settle c7WitCmd.id (.resolved "")])) :=
  ⟨⟨by decide, by decide, by decide⟩,
    c7_resolve_strips_echo c7WitState c7WitCmd (by decide) (by decide) (by decide)⟩

/-- C8 (confirmed): when the timer armed for the active command fires, the
command is rejected with the `PowerShellTimeout` error (message
`exec timeout: <command>`), both accumulators are cleared, and the queue is
advanced exactly as in normal resolution: the next queued command (if any)
is promoted to active, its stdin write is issued, and its timeout (if
configured) is armed. -/
theorem c8_timeout_advances_queue (s : PSState) (c : PSCmd)
    (_hcmd : s.cmd = some c) (hmem : c ∈ s.timers) (hcr : s.crashed = false) :
    (step s (.timerFire c)).trace
        = s.trace ++ [Obs.settle c.id (.rejected (.psTimeout ("exec timeout: " ++ jsTrimEnd c.cmd)))] ∧
    (step s (.timerFire c)).stdoutBuf = "" ∧
    (step s (.timerFire c)).stderrBuf = "" ∧
    (s.cmdQueue = [] → (step s (.timerFire c)).cmd = none) ∧
    (∀ c2 rest, s.cmdQueue = c2 :: rest →
        (step s (.timerFire c)).cmd = some c2 ∧
        (step s (.timerFire c)).cmdQueue = rest ∧
        (s.child = true → (step s (.timerFire c)).pendingWrites = c2 :: s.pendingWrites) ∧
        (c2.hasTimeout = true → c2 ∈ (step s (.timerFire c)).timers)) := by
  have hred : step s (.timerFire c) =
      emitObs (.settle c.id (.rejected (.psTimeout ("exec timeout: " ++ jsTrimEnd c.cmd))))
        (popQueue { s with timers := s.timers.erase c }) := by
    simp [step, hcr, hmem]
  rw [hred]
  refine ⟨?_, ?_, ?_, ?_, ?_⟩
  · simp [emitObs, popQueue_trace]
  · simp only [emitObs]
    exact popQueue_stdoutBuf _
  · simp only [emitObs]
    exact popQueue_stderrBuf _
  · intro hq
    simp only [emitObs]
    simp [popQueue, hq]
  · intro c2 rest hq
    simp only [emitObs]
    refine ⟨by simp [popQueue, hq], by simp [popQueue, hq], ?_, ?_⟩
    · intro hchT
      simp [popQueue, hq, hchT]
    · intro hT2
      simp [popQueue, hq, hT2]

def c8WitState : PSState := run readyState [.execReq "a" true, .execReq "b" false]
def c8WitCmd : PSCmd := { id := 0, cmd := "a\n", hasTimeout := true }

theorem c8_timeout_advances_queue_witness :
    (c8WitState.cmd = some c8WitCmd ∧ c8WitCmd ∈ c8WitState.timers ∧
      c8WitState.crashed = false) ∧
    ((step c8WitState (.timerFire c8WitCmd)).trace
        = c8WitState.trace
          ++ [Obs.settle c8WitCmd.id (.rejected (.psTimeout ("exec timeout: " ++ jsTrimEnd c8WitCmd.cmd)))] ∧
      (step c8WitState (.timerFire c8WitCmd)).stdoutBuf = "" ∧
      (step c8WitState (.timerFire c8WitCmd)).stderrBuf = "" ∧
      (c8WitState.cmdQueue = [] → (step c8WitState (.timerFire c8WitCmd)).cmd = none) ∧
      (∀ c2 rest, c8WitState.cmdQueue = c2 :: rest →
        (step c8WitState (.timerFire c8WitCmd)).cmd = some c2 ∧
        (step c8WitState (.timerFire c8WitCmd)).cmdQueue = rest ∧
        (c8WitState.child = true →
          (step c8WitState (.timerFire c8WitCmd)).pendingWrites = c2 :: c8WitState.pendingWrites) ∧
        (c2.hasTimeout = true → c2 ∈ (step c8WitState (.timerFire c8WitCmd)).timers))) :=
  ⟨⟨by decide, by decide, by decide⟩,
    c8_timeout_advances_queue c8WitState c8WitCmd (by decide) (by decide) (by decide)⟩

/-- C9 (confirmed): `exec` on a session with no live process handle throws
the `PowerShellError('No open shell to execute commands')` synchronously,
before any mutation: the returned state is the input state, so the queue and
every other field are unchanged. -/
theorem c9_exec_not_open (txt : String) (hasT : Bool) (s : PSState)
    (hch : s.child = false) :
    exec txt hasT s = (s, some (.psError "No open shell to execute commands")) := by
  simp [exec, hch]

theorem c9_exec_not_open_witness :
    initialState.child = false ∧
    exec "Get-Date" false initialState
      = (initialState, some (.psError "No open shell to execute commands")) :=
  ⟨by decide, c9_exec_not_open "Get-Date" false initialState (by decide)⟩

/-- C10 (confirmed): `open` on a session that already owns a live child
rejects with the `PowerShellError('already spawned something')` — but it has
already cleared both accumulators and overwritten the verbose-log flag from
the (default-merged) options before the check runs, so a failed `open` is
not state-preserving with respect to the buffers and the logging flag. -/
theorem c10_open_already_open (o : PSOptions) (s : PSState) (hch : s.child = true) :
    openShell o s =
      ({ s with stdoutBuf := "", stderrBuf := "", log := o.log.getD false },
        some (.psError "already spawned something")) := by
  simp [openShell, hch]

def c10WitState : PSState :=
  run readyState [.execReq "a" false, .outChunk "partial", .errChunk "warn"]
def c10WitOpts : PSOptions := { shell := none, args := none, log := some true }

theorem c10_open_already_open_witness :
    c10WitState.child = true ∧
    openShell c10WitOpts c10WitState =
      ({ c10WitState with stdoutBuf := "", stderrBuf := "", log := c10WitOpts.log.getD false },
        some (.psError "already spawned something")) :=
  ⟨by decide, c10_open_already_open c10WitOpts c10WitState (by decide)⟩

end PSHost
